import Mathlib

/-!
# Verification of the staticsocket detection-and-resolution engine

A shallow embedding, in Lean, of the core of the `staticsocket` repository:
the pattern catalog and call-site matcher (`internal/parser/patterns/patterns.go`),
the value resolver (`internal/resolver/resolver.go`), the record data model
(`pkg/types/socket.go`) and the aggregator count recomputation
(`pkg/analyzer`, `updateCounts`).

Go strings are modelled as `List Char` (`GoStr`); the Go standard-library
string helpers used by the code (`strings.Split` on one-character separators,
`strings.Contains`, `strings.HasPrefix`, `strings.Join`, `strconv.Atoi`) are
embedded as executable Lean functions below.  Go `*ast` expression nodes are
modelled by the closed variant type `GoExpr`, covering exactly the node shapes
the engine inspects (string basic literals, identifiers, selector expressions,
binary expressions, call expressions, and an `other` catch-all for every node
shape the code does not look into).
-/

/-- Go strings, modelled as lists of characters. -/
abbrev GoStr := List Char

/-- Coerce a Lean string literal to a `GoStr`. -/
def gs (s : String) : GoStr := s.data

/-- `strings.HasPrefix s pre`. -/
def goStartsWith : GoStr → GoStr → Bool
  | _, [] => true
  | [], _ :: _ => false
  | x :: xs, p :: ps => x = p && goStartsWith xs ps

/-- `strings.Contains s sub`: `sub` occurs as a contiguous substring of `s`. -/
def goContains (s sub : GoStr) : Bool :=
  match s with
  | [] => goStartsWith [] sub
  | _ :: xs => goStartsWith s sub || goContains xs sub

/-- `strings.Split s sep` for a one-character separator `sep` (the engine only
ever splits on `":"` and `"/"`). -/
def goSplit (c : Char) : GoStr → List GoStr
  | [] => [[]]
  | x :: xs =>
    if x = c then [] :: goSplit c xs
    else
      match goSplit c xs with
      | [] => [[x]]
      | r :: rs => (x :: r) :: rs

/-- `strings.Join parts sep`. -/
def goJoin (parts : List GoStr) (sep : GoStr) : GoStr :=
  List.intercalate sep parts

/-- Digit-accumulation loop of `strconv.Atoi`: `none` unless every character
is an ASCII digit. -/
def digitsToNat (acc : Nat) : GoStr → Option Nat
  | [] => some acc
  | c :: cs => if c.isDigit then digitsToNat (acc * 10 + (c.toNat - 48)) cs else none

/-- `strconv.Atoi`: optional sign, one or more ASCII digits, 64-bit range
check (out-of-range input is an error in Go). -/
def goAtoi (s : GoStr) : Option Int :=
  match s with
  | [] => none
  | c :: cs =>
    if c = ('+') then
      match cs with
      | [] => none
      | _ =>
        match digitsToNat 0 cs with
        | some n => if n ≤ 9223372036854775807 then some (n : Int) else none
        | none => none
    else if c = ('-') then
      match cs with
      | [] => none
      | _ =>
        match digitsToNat 0 cs with
        | some n => if n ≤ 9223372036854775808 then some (-(n : Int)) else none
        | none => none
    else
      match digitsToNat 0 s with
      | some n => if n ≤ 9223372036854775807 then some (n : Int) else none
      | none => none

/-- `types.TrafficType` (`pkg/types/socket.go`): the two traffic-type
constants `TrafficTypeIngress` and `TrafficTypeEgress`, the only values the
engine ever constructs. -/
inductive TrafficType where
  | ingress
  | egress
deriving DecidableEq, Repr

/-- `types.Protocol` (`pkg/types/socket.go`): the protocol constants. -/
inductive Protocol where
  | tcp
  | udp
  | http
  | https
  | grpc
  | unix
deriving DecidableEq, Repr

/-- `types.SocketInfo` (`pkg/types/socket.go`).  Optional (`*int`/`*string`)
fields are `Option`s; plain string fields default to the empty string and
`IsResolved` to `false`, matching Go zero values. -/
structure SocketInfo where
  listenPort : Option Int := none
  destinationHost : Option GoStr := none
  destinationPort : Option Int := none
  processName : GoStr := []
  sourceFile : GoStr := []
  functionName : GoStr := []
  listenInterface : GoStr := []
  rawValue : GoStr := []
  patternMatch : GoStr := []
  type : TrafficType
  protocol : Protocol
  sourceLine : Int := 0
  isResolved : Bool := false
deriving DecidableEq, Repr

/-- `types.AnalysisResults` (`pkg/types/socket.go`). -/
structure AnalysisResults where
  processName : GoStr := []
  sockets : List SocketInfo := []
  totalCount : Int := 0
  ingressCount : Int := 0
  egressCount : Int := 0
deriving DecidableEq, Repr

/-- The Go `ast.Expr` shapes the engine inspects.  `strLit v` is an
`*ast.BasicLit` of kind `STRING` whose unquoted value is `v`; `other` covers
every other node (non-string literals, composite literals, etc.), none of
which the engine looks into. -/
inductive GoExpr where
  | strLit (value : GoStr)
  | ident (name : GoStr)
  | selector (x : GoExpr) (sel : GoStr)
  | binary (op : GoStr) (x y : GoExpr)
  | call (fn : GoExpr) (args : List GoExpr)
  | other
deriving Repr

/-- An `*ast.CallExpr`: callee expression plus ordered argument list. -/
structure CallExpr where
  fn : GoExpr
  args : List GoExpr
deriving Repr

/-- An `*ast.ValueSpec` or other spec inside a `GenDecl` (`resolveIdentifier`
only inspects value specs). -/
inductive Spec where
  | valueSpec (names : List GoStr) (values : List GoExpr)
  | otherSpec
deriving Repr

/-- A top-level `ast.Decl`: `GenDecl`s carry specs, everything else is opaque
to the resolver. -/
inductive Decl where
  | genDecl (specs : List Spec)
  | otherDecl
deriving Repr

/-- An `*ast.File`: its top-level declaration list (the only part of the file
the resolver reads). -/
structure File where
  decls : List Decl
deriving Repr

/-! ## Pattern catalog and call-site matcher (`internal/parser/patterns/patterns.go`) -/

/-- `dialAddressArg` constant (patterns.go:12). -/
def dialAddressArg : Nat := 2

/-- `patterns.IngressPattern` (patterns.go:21-25).  Unset Go fields default to
zero values (`addressArg := 0`, `portOnly := false`). -/
structure IngressPattern where
  protocol : Protocol
  addressArg : Nat := 0
  portOnly : Bool := false
deriving DecidableEq, Repr

/-- `patterns.EgressPattern` (patterns.go:27-31). -/
structure EgressPattern where
  protocol : Protocol
  addressArg : Nat := 0
  urlArg : Nat := 0
deriving DecidableEq, Repr

/-- The `ingressPatterns` map built by `NewPatternMatcher` (patterns.go:42-51).
Lookup in a Go map with pairwise-distinct literal keys is embedded as an
if-chain over the same keys. -/
def ingressPatterns (funcName : GoStr) : Option IngressPattern :=
  if funcName = gs ("net.Listen") then some { protocol := .tcp, addressArg := 1 }
  else if funcName = gs ("net.ListenTCP") then some { protocol := .tcp, addressArg := 1 }
  else if funcName = gs ("net.ListenUDP") then some { protocol := .udp, addressArg := 1 }
  else if funcName = gs ("net.ListenUnix") then some { protocol := .unix, addressArg := 1 }
  else if funcName = gs ("http.ListenAndServe") then
    some { protocol := .http, addressArg := 0, portOnly := true }
  else if funcName = gs ("http.ListenAndServeTLS") then
    some { protocol := .https, addressArg := 0, portOnly := true }
  else none

/-- The `egressPatterns` map built by `NewPatternMatcher` (patterns.go:53-61). -/
def egressPatterns (funcName : GoStr) : Option EgressPattern :=
  if funcName = gs ("net.Dial") then some { protocol := .tcp, addressArg := 1 }
  else if funcName = gs ("net.DialTCP") then some { protocol := .tcp, addressArg := dialAddressArg }
  else if funcName = gs ("net.DialUDP") then some { protocol := .udp, addressArg := dialAddressArg }
  else if funcName = gs ("net.DialTimeout") then some { protocol := .tcp, addressArg := 1 }
  else if funcName = gs ("http.Get") then some { protocol := .http, urlArg := 0 }
  else if funcName = gs ("http.Post") then some { protocol := .http, urlArg := 0 }
  else if funcName = gs ("http.PostForm") then some { protocol := .http, urlArg := 0 }
  else none

/-- `extractFunctionName` (patterns.go:153-163): a selector with a simple
identifier receiver joins as `receiver.member`; a bare identifier is used
directly; anything else yields the empty string. -/
def extractFunctionName (fn : GoExpr) : GoStr :=
  match fn with
  | .selector (.ident x) sel => x ++ (('.') :: sel)
  | .ident n => n
  | _ => []

/-- `extractStringLiteral` (patterns.go:165-173): the unquoted value of a
string basic literal, the empty string otherwise. -/
def extractStringLiteral (expr : GoExpr) : GoStr :=
  match expr with
  | .strLit v => v
  | _ => []

/-- `extractContainingFunction` (patterns.go:175-179): the source always
returns `"unknown"`. -/
def extractContainingFunction (_callExpr : CallExpr) : GoStr := gs ("unknown")

/-- `parseIngressAddress` (patterns.go:181-206).  Note that `IsResolved` is
set to `true` unconditionally, before any field is derived. -/
def parseIngressAddress (socket : SocketInfo) (address : GoStr) (portOnly : Bool) : SocketInfo :=
  let socket := { socket with isResolved := true }
  if portOnly && goStartsWith address (gs (":")) then
    match goAtoi (address.drop 1) with
    | some port => { socket with listenPort := some port, listenInterface := gs ("0.0.0.0") }
    | none => socket
  else
    match goSplit (':') address with
    | [h, pt] =>
      let host := if h = [] then gs ("0.0.0.0") else h
      let socket := { socket with listenInterface := host }
      match goAtoi pt with
      | some port => { socket with listenPort := some port }
      | none => socket
    | _ => socket

/-- `parseEgressAddress` (patterns.go:208-220). -/
def parseEgressAddress (socket : SocketInfo) (address : GoStr) : SocketInfo :=
  let socket := { socket with isResolved := true }
  match goSplit (':') address with
  | [h, pt] =>
    let socket := { socket with destinationHost := some h }
    match goAtoi pt with
    | some port => { socket with destinationPort := some port }
    | none => socket
  | _ => socket

/-- Host/port extraction in `parseEgressURL` (patterns.go:243-262): everything
before the first `/` is the `host[:port]` segment; an explicit port overrides
the scheme default, a missing port falls back to it. -/
def parseEgressURLHost (socket : SocketInfo) (remainingURL : GoStr) (defaultPort : Int) : SocketInfo :=
  match goSplit ('/') remainingURL with
  | [] => socket
  | hostPort :: _ =>
    if hostPort = [] then socket
    else if goContains hostPort (gs (":")) then
      match goSplit (':') hostPort with
      | h :: pt :: _ =>
        let socket := { socket with destinationHost := some h }
        match goAtoi pt with
        | some port => { socket with destinationPort := some port }
        | none => socket
      | _ => socket
    else { socket with destinationHost := some hostPort, destinationPort := some defaultPort }

/-- `parseEgressURL` (patterns.go:222-263): scheme detection (promoting the
protocol and choosing the default port), then host/port extraction. -/
def parseEgressURL (socket : SocketInfo) (url : GoStr) : SocketInfo :=
  let socket := { socket with isResolved := true }
  if goStartsWith url (gs ("https://")) then
    parseEgressURLHost { socket with protocol := .https } (url.drop 8) 443
  else if goStartsWith url (gs ("http://")) then
    parseEgressURLHost { socket with protocol := .http } (url.drop 7) 80
  else
    parseEgressURLHost socket url 80

/-- The preliminary ingress record built by `matchIngressPattern`
(patterns.go:94-100), before any literal is parsed. -/
def buildIngressSocket (pattern : IngressPattern) (funcName rawValue : GoStr)
    (callExpr : CallExpr) : SocketInfo :=
  { type := .ingress
    protocol := pattern.protocol
    rawValue := rawValue
    patternMatch := funcName
    functionName := extractContainingFunction callExpr }

/-- The preliminary egress record built by `matchEgressPattern`
(patterns.go:134-140). -/
def buildEgressSocket (pattern : EgressPattern) (funcName rawValue : GoStr)
    (callExpr : CallExpr) : SocketInfo :=
  { type := .egress
    protocol := pattern.protocol
    rawValue := rawValue
    patternMatch := funcName
    functionName := extractContainingFunction callExpr }

/-- `matchIngressPattern` (patterns.go:82-107): too few arguments is no match;
otherwise build the preliminary record and, when the address argument is a
non-empty string literal, parse it immediately. -/
def matchIngressPattern (callExpr : CallExpr) (pattern : IngressPattern)
    (funcName : GoStr) : Option SocketInfo :=
  if callExpr.args.length ≤ pattern.addressArg then none
  else
    let rawValue := extractStringLiteral (callExpr.args.getD pattern.addressArg .other)
    let socket := buildIngressSocket pattern funcName rawValue callExpr
    some (if rawValue = [] then socket
          else parseIngressAddress socket rawValue pattern.portOnly)

/-- Body of `matchEgressPattern` after the argument index and URL-ness have
been chosen (patterns.go:127-150). -/
def matchEgressAt (callExpr : CallExpr) (pattern : EgressPattern) (funcName : GoStr)
    (argIndex : Nat) (isURL : Bool) : Option SocketInfo :=
  if callExpr.args.length ≤ argIndex then none
  else
    let rawValue := extractStringLiteral (callExpr.args.getD argIndex .other)
    let socket := buildEgressSocket pattern funcName rawValue callExpr
    some (if rawValue = [] then socket
          else if isURL then parseEgressURL socket rawValue
          else parseEgressAddress socket rawValue)

/-- `matchEgressPattern` (patterns.go:109-151): the three HTTP helpers use
`URLArg` and URL parsing, every other egress pattern uses `AddressArg` and
host:port parsing.  (The Go code also tests `pattern.URLArg >= 0`, which is
vacuous for the `Nat`-valued index.) -/
def matchEgressPattern (callExpr : CallExpr) (pattern : EgressPattern)
    (funcName : GoStr) : Option SocketInfo :=
  if funcName = gs ("http.Get") ∨ funcName = gs ("http.Post") ∨ funcName = gs ("http.PostForm") then
    matchEgressAt callExpr pattern funcName pattern.urlArg true
  else
    matchEgressAt callExpr pattern funcName pattern.addressArg false

/-- `MatchSocketPattern` (patterns.go:63-80): extract the qualified callee
name, look it up in the ingress then the egress catalog; `none` (Go `nil`) is
the no-match outcome. -/
def MatchSocketPattern (callExpr : CallExpr) : Option SocketInfo :=
  let funcName := extractFunctionName callExpr.fn
  if funcName = [] then none
  else
    match ingressPatterns funcName with
    | some pattern => matchIngressPattern callExpr pattern funcName
    | none =>
      match egressPatterns funcName with
      | some pattern => matchEgressPattern callExpr pattern funcName
      | none => none

/-! ## Value resolver (`internal/resolver/resolver.go`) -/

/-- Inner loop of `resolveIdentifier` over one `ValueSpec` (resolver.go:103-113):
walk the names with their index; a name match whose corresponding value is a
string basic literal returns its unquoted value and stops the whole scan. -/
def scanValueSpec (identName : GoStr) (names : List GoStr) (values : List GoExpr)
    (i : Nat) : Option GoStr :=
  match names with
  | [] => none
  | n :: rest =>
    if n = identName ∧ i < values.length then
      match values.getD i .other with
      | .strLit v => some v
      | _ => scanValueSpec identName rest values (i + 1)
    else scanValueSpec identName rest values (i + 1)

/-- Loop of `resolveIdentifier` over the specs of one `GenDecl`
(resolver.go:101-115). -/
def scanSpecs (identName : GoStr) : List Spec → Option GoStr
  | [] => none
  | .valueSpec names values :: rest =>
    match scanValueSpec identName names values 0 with
    | some v => some v
    | none => scanSpecs identName rest
  | .otherSpec :: rest => scanSpecs identName rest

/-- Loop of `resolveIdentifier` over the file declarations (resolver.go:99-117). -/
def scanDecls (identName : GoStr) : List Decl → Option GoStr
  | [] => none
  | .genDecl specs :: rest =>
    match scanSpecs identName specs with
    | some v => some v
    | none => scanDecls identName rest
  | .otherDecl :: rest => scanDecls identName rest

/-- `resolveIdentifier` (resolver.go:97-119): first string-literal top-level
value binding of the identifier, or the empty string (which callers treat as
failure). -/
def resolveIdentifier (identName : GoStr) (file : File) : GoStr :=
  match scanDecls identName file.decls with
  | some v => v
  | none => []

/-- `parseIngressValue` (resolver.go:133-142): only the bare `":port"` form is
handled on the resolver path. -/
def parseIngressValue (socket : SocketInfo) (value : GoStr) : SocketInfo :=
  match value with
  | (':') :: rest =>
    match goAtoi rest with
    | some port => { socket with listenPort := some port, listenInterface := gs ("0.0.0.0") }
    | none => socket
  | _ => socket

/-- `parseEgressValue` (resolver.go:144-162): values containing `"://"` are
skipped entirely (the comment claims URL parsing is handled by the patterns
package, but that parser is never re-invoked on this path); otherwise the
plain `host:port` form is parsed. -/
def parseEgressValue (socket : SocketInfo) (value : GoStr) : SocketInfo :=
  if goContains value (gs ("://")) then socket
  else
    match goSplit (':') value with
    | [h, pt] =>
      let socket := { socket with destinationHost := some h }
      match goAtoi pt with
      | some port => { socket with destinationPort := some port }
      | none => socket
    | _ => socket

/-- `updateSocketWithResolvedValue` (resolver.go:121-131). -/
def updateSocketWithResolvedValue (socket : SocketInfo) (value : GoStr) : SocketInfo :=
  let socket := { socket with rawValue := value, isResolved := true }
  match socket.type with
  | .ingress => parseIngressValue socket value
  | .egress => parseEgressValue socket value

/-- `analyzeVariablePattern` (resolver.go:164-182): heuristic name
classification, returning `(host, port, resolved)`. -/
def analyzeVariablePattern (varName : GoStr) : GoStr × Int × Bool :=
  if goContains varName (gs ("server.URL")) || goContains varName (gs ("httptest")) then
    (gs ("localhost"), 0, true)
  else if goContains varName (gs ("localhost")) || goContains varName (gs ("127.0.0.1")) then
    (gs ("localhost"), 0, true)
  else if goContains varName (gs ("URL")) &&
      (goContains varName (gs ("api")) || goContains varName (gs ("service"))) then
    (gs ("external-service"), 0, true)
  else ([], 0, false)

/-- Selector-chain walk of `extractSelectorName` (resolver.go:184-204),
collecting the name parts outside-in. -/
def selectorParts : GoExpr → GoStr → List GoStr
  | .ident n, sel => [n, sel]
  | .selector x innerSel, sel => selectorParts x innerSel ++ [sel]
  | _, sel => [sel]

/-- `extractSelectorName` (resolver.go:184-204) applied to a selector node
with receiver `x` and member `sel`. -/
def extractSelectorName (x : GoExpr) (sel : GoStr) : GoStr :=
  goJoin (selectorParts x sel) (gs ("."))

/-- Host extraction of `parseURLForSocket` (resolver.go:271-287): like the
pattern package's URL parser but without a default port in the no-colon
branch. -/
def parseURLForSocketHost (socket : SocketInfo) (url : GoStr) : SocketInfo :=
  match goSplit ('/') url with
  | [] => socket
  | hostPort :: _ =>
    if hostPort = [] then socket
    else if goContains hostPort (gs (":")) then
      match goSplit (':') hostPort with
      | h :: pt :: _ =>
        let socket := { socket with destinationHost := some h }
        match goAtoi pt with
        | some port => { socket with destinationPort := some port }
        | none => socket
      | _ => socket
    else { socket with destinationHost := some hostPort }

/-- `parseURLForSocket` (resolver.go:257-288): scheme detection sets the
protocol and the scheme-default destination port eagerly, then the host (and
any explicit port) is extracted. -/
def parseURLForSocket (socket : SocketInfo) (url : GoStr) : SocketInfo :=
  if goStartsWith url (gs ("https://")) then
    parseURLForSocketHost { socket with protocol := .https, destinationPort := some 443 } (url.drop 8)
  else if goStartsWith url (gs ("http://")) then
    parseURLForSocketHost { socket with protocol := .http, destinationPort := some 80 } (url.drop 7)
  else parseURLForSocketHost socket url

/-- `tryResolveBinaryExpr` (resolver.go:206-229): for a `+` concatenation
whose left operand is an identifier bound to a string literal, mark the record
resolved with the prefix plus a `" + ..."` continuation marker and parse the
prefix as URL or host:port.  The `Bool` is the Go return value. -/
def tryResolveBinaryExpr (socket : SocketInfo) (op : GoStr) (x _y : GoExpr)
    (file : File) : SocketInfo × Bool :=
  if op = gs ("+") then
    match x with
    | .ident n =>
      let baseValue := resolveIdentifier n file
      if baseValue = [] then (socket, false)
      else
        let socket := { socket with isResolved := true, rawValue := baseValue ++ gs (" + ...") }
        if goContains baseValue (gs ("://")) then (parseURLForSocket socket baseValue, true)
        else (parseEgressValue socket baseValue, true)
    | _ => (socket, false)
  else (socket, false)

/-- `tryResolveCallExpr` (resolver.go:231-255): call-result heuristics over
the callee's selector name. -/
def tryResolveCallExpr (socket : SocketInfo) (fn : GoExpr) (_file : File) : SocketInfo × Bool :=
  match fn with
  | .selector x sel =>
    let funcName := extractSelectorName x sel
    if goContains funcName (gs ("String")) && goContains funcName (gs ("URL")) then
      ({ socket with isResolved := true, rawValue := gs ("parsed-url"),
                     destinationHost := some (gs ("parsed-url-host")) }, true)
    else if goContains funcName (gs ("getURL")) || goContains funcName (gs ("GetURL")) then
      ({ socket with isResolved := true, rawValue := funcName ++ gs ("()"),
                     destinationHost := some (gs ("dynamic-url")) }, true)
    else (socket, false)
  | _ => (socket, false)

/-- `tryResolveArgument` (resolver.go:48-95): dispatch on the argument's node
shape; each successful strategy mutates the record and returns `true`. -/
def tryResolveArgument (socket : SocketInfo) (arg : GoExpr) (file : File) : SocketInfo × Bool :=
  match arg with
  | .ident name =>
    let value := resolveIdentifier name file
    if value ≠ [] then (updateSocketWithResolvedValue socket value, true)
    else
      let (host, port, resolved) := analyzeVariablePattern name
      if resolved then
        let socket := { socket with isResolved := true, destinationHost := some host }
        let socket := if 0 < port then { socket with destinationPort := some port } else socket
        ({ socket with rawValue := name }, true)
      else (socket, false)
  | .selector x sel =>
    let varName := extractSelectorName x sel
    let (host, port, resolved) := analyzeVariablePattern varName
    if resolved then
      let socket := { socket with isResolved := true, destinationHost := some host }
      let socket := if 0 < port then { socket with destinationPort := some port } else socket
      ({ socket with rawValue := varName }, true)
    else (socket, false)
  | .binary op x y => tryResolveBinaryExpr socket op x y file
  | .call fn _args => tryResolveCallExpr socket fn file
  | _ => (socket, false)

/-- `ResolveValues` (resolver.go:19-46): a no-op for already-resolved records;
otherwise pick the URL argument (index 0 for the three HTTP helpers, index 1
for everything else) and run the strategy chain on it. -/
def ResolveValues (socket : SocketInfo) (callExpr : CallExpr) (file : File) : SocketInfo :=
  if socket.isResolved then socket
  else
    let urlArg : Option GoExpr :=
      if socket.patternMatch = gs ("http.Get") ∨ socket.patternMatch = gs ("http.Post")
          ∨ socket.patternMatch = gs ("http.PostForm") then
        if 0 < callExpr.args.length then callExpr.args.get? 0 else none
      else
        if 1 < callExpr.args.length then callExpr.args.get? 1 else none
    match urlArg with
    | some arg => (tryResolveArgument socket arg file).1
    | none => socket

/-! ## Aggregator (`pkg/analyzer`, `updateCounts`) -/

/-- The counting loop of `updateCounts`: one pass over the record sequence,
tallying `(ingress, egress)`. -/
def countLoop : List SocketInfo → Int × Int
  | [] => (0, 0)
  | s :: rest =>
    let c := countLoop rest
    match s.type with
    | .ingress => (c.1 + 1, c.2)
    | .egress => (c.1, c.2 + 1)

/-- `updateCounts` (analyzer): `TotalCount` is the length of the record
sequence, `IngressCount`/`EgressCount` are recomputed by a full pass. -/
def updateCounts (r : AnalysisResults) : AnalysisResults :=
  { r with totalCount := (r.sockets.length : Int)
           ingressCount := (countLoop r.sockets).1
           egressCount := (countLoop r.sockets).2 }

/-! ## Concrete inputs used by the claim theorems and witnesses -/

/-- An empty compilation unit (no top-level declarations). -/
def emptyFile : File := { decls := [] }

/-- A bare ingress record, as used when exercising the parsers directly. -/
def sockIng : SocketInfo := { type := .ingress, protocol := .tcp }

/-- A bare egress record, as used when exercising the parsers directly. -/
def sockEg : SocketInfo := { type := .egress, protocol := .http }

/-- `http.Get("https://api.example.com")` — the literal-argument call. -/
def c1CallLit : CallExpr :=
  { fn := .selector (.ident (gs ("http"))) (gs ("Get"))
    args := [.strLit (gs ("https://api.example.com"))] }

/-- `http.Get(base)` — the same URL passed through a top-level constant. -/
def c1CallConst : CallExpr :=
  { fn := .selector (.ident (gs ("http"))) (gs ("Get"))
    args := [.ident (gs ("base"))] }

/-- A file declaring `base = "https://api.example.com"` at top level. -/
def c1File : File :=
  { decls := [.genDecl [.valueSpec [gs ("base")] [.strLit (gs ("https://api.example.com"))]]] }

/-- Matcher followed by resolver on the literal call. -/
def c1FinalLit : Option SocketInfo :=
  (MatchSocketPattern c1CallLit).map (fun s => ResolveValues s c1CallLit c1File)

/-- Matcher followed by resolver on the constant-argument call. -/
def c1FinalConst : Option SocketInfo :=
  (MatchSocketPattern c1CallConst).map (fun s => ResolveValues s c1CallConst c1File)

/-- `net.Listen("tcp", "abc")`: a literal address that parses to nothing. -/
def c2Call : CallExpr :=
  { fn := .selector (.ident (gs ("net"))) (gs ("Listen"))
    args := [.strLit (gs ("tcp")), .strLit (gs ("abc"))] }

/-- `net.Listen("tcp", localhostAddr)` where `localhostAddr` has no top-level
string-literal binding, so only the name heuristic can fire. -/
def c4Call : CallExpr :=
  { fn := .selector (.ident (gs ("net"))) (gs ("Listen"))
    args := [.strLit (gs ("tcp")), .ident (gs ("localhostAddr"))] }

/-- Matcher followed by resolver on `c4Call` in an empty file. -/
def c4Final : Option SocketInfo :=
  (MatchSocketPattern c4Call).map (fun s => ResolveValues s c4Call emptyFile)

/-! ## Helper lemmas about the embedded string functions -/

theorem goSplit_ne_nil (c : Char) (s : GoStr) : goSplit c s ≠ [] := by
  induction s with
  | nil => simp [goSplit]
  | cons x xs ih =>
    unfold goSplit
    split
    · simp
    · split
      · simp
      · simp

theorem goContains_single_of_mem {c : Char} {s : GoStr}
    (h : c ∈ s) : goContains s [c] = true := by
  induction s with
  | nil => simp at h
  | cons x xs ih =>
    rcases List.mem_cons.mp h with h | h
    · subst h
      unfold goContains goStartsWith
      simp [goStartsWith]
    · unfold goContains
      rw [ih h]
      simp

theorem mem_of_goSplit_two {c : Char} {s a b : GoStr} {l : List GoStr}
    (h : goSplit c s = a :: b :: l) : c ∈ s := by
  induction s generalizing a b l with
  | nil => simp [goSplit] at h
  | cons x xs ih =>
    by_cases hx : x = c
    · subst hx; simp
    · unfold goSplit at h
      rw [if_neg hx] at h
      rcases hsp : goSplit c xs with _ | ⟨r, rs⟩
      · exact absurd hsp (goSplit_ne_nil c xs)
      · rw [hsp] at h
        injection h with h1 h2
        subst h2
        exact List.mem_cons_of_mem x (ih hsp)

theorem goContains_of_split_two {c : Char} {s a b : GoStr} {l : List GoStr}
    (h : goSplit c s = a :: b :: l) : goContains s [c] = true :=
  goContains_single_of_mem (mem_of_goSplit_two h)

theorem digitsToNat_all_digits {acc n : Nat} {cs : GoStr}
    (h : digitsToNat acc cs = some n) : ∀ c ∈ cs, c.isDigit = true := by
  induction cs generalizing acc with
  | nil => simp
  | cons c cs ih =>
    unfold digitsToNat at h
    by_cases hd : c.isDigit
    · rw [if_pos hd] at h
      intro x hx
      rcases List.mem_cons.mp hx with hx | hx
      · subst hx; exact hd
      · exact ih h x hx
    · rw [if_neg hd] at h
      exact absurd h (by simp)

theorem goAtoi_no_colon {t : GoStr} {p : Int}
    (h : goAtoi t = some p) : ∀ x ∈ t, x ≠ (':') := by
  rcases t with _ | ⟨c, cs⟩
  · simp [goAtoi] at h
  · simp only [goAtoi] at h
    intro x hx
    by_cases hplus : c = ('+')
    · rw [if_pos hplus] at h
      rcases cs with _ | ⟨d, ds⟩
      · simp at h
      · rcases hdig : digitsToNat 0 (d :: ds) with _ | n
        · rw [hdig] at h; simp at h
        · have hall := digitsToNat_all_digits hdig
          rcases List.mem_cons.mp hx with hx | hx
          · subst hplus; subst hx; decide
          · have hdx := hall x hx
            intro hcol
            rw [hcol] at hdx
            exact absurd hdx (by decide)
    · rw [if_neg hplus] at h
      by_cases hminus : c = ('-')
      · rw [if_pos hminus] at h
        rcases cs with _ | ⟨d, ds⟩
        · simp at h
        · rcases hdig : digitsToNat 0 (d :: ds) with _ | n
          · rw [hdig] at h; simp at h
          · have hall := digitsToNat_all_digits hdig
            rcases List.mem_cons.mp hx with hx | hx
            · subst hminus; subst hx; decide
            · have hdx := hall x hx
              intro hcol
              rw [hcol] at hdx
              exact absurd hdx (by decide)
      · rw [if_neg hminus] at h
        rcases hdig : digitsToNat 0 (c :: cs) with _ | n
        · rw [hdig] at h; simp at h
        · have hall := digitsToNat_all_digits hdig
          have hdx := hall x hx
          intro hcol
          rw [hcol] at hdx
          exact absurd hdx (by decide)

theorem goSplit_eq_self {c : Char} {s : GoStr}
    (h : ∀ x ∈ s, x ≠ c) : goSplit c s = [s] := by
  induction s with
  | nil => rfl
  | cons x xs ih =>
    unfold goSplit
    rw [if_neg (h x (by simp))]
    rw [ih (fun y hy => h y (by simp [hy]))]

theorem goAtoi_split {t : GoStr} {p : Int}
    (h : goAtoi t = some p) : goSplit (':') t = [t] :=
  goSplit_eq_self (goAtoi_no_colon h)

/-! ## Field lemmas for the parsers -/

theorem parseIngressAddress_fields (s : SocketInfo) (v : GoStr) (po : Bool) :
    (parseIngressAddress s v po).isResolved = true ∧
    (parseIngressAddress s v po).rawValue = s.rawValue ∧
    (parseIngressAddress s v po).patternMatch = s.patternMatch ∧
    (parseIngressAddress s v po).type = s.type ∧
    (parseIngressAddress s v po).protocol = s.protocol ∧
    (parseIngressAddress s v po).destinationHost = s.destinationHost ∧
    (parseIngressAddress s v po).destinationPort = s.destinationPort := by
  unfold parseIngressAddress
  repeat' split
  all_goals simp

theorem parseEgressAddress_fields (s : SocketInfo) (v : GoStr) :
    (parseEgressAddress s v).isResolved = true ∧
    (parseEgressAddress s v).rawValue = s.rawValue ∧
    (parseEgressAddress s v).patternMatch = s.patternMatch ∧
    (parseEgressAddress s v).type = s.type ∧
    (parseEgressAddress s v).protocol = s.protocol ∧
    (parseEgressAddress s v).listenPort = s.listenPort ∧
    (parseEgressAddress s v).listenInterface = s.listenInterface := by
  unfold parseEgressAddress
  repeat' split
  all_goals simp

theorem parseEgressURLHost_fields (s : SocketInfo) (v : GoStr) (dp : Int) :
    (parseEgressURLHost s v dp).isResolved = s.isResolved ∧
    (parseEgressURLHost s v dp).rawValue = s.rawValue ∧
    (parseEgressURLHost s v dp).patternMatch = s.patternMatch ∧
    (parseEgressURLHost s v dp).type = s.type ∧
    (parseEgressURLHost s v dp).protocol = s.protocol ∧
    (parseEgressURLHost s v dp).listenPort = s.listenPort ∧
    (parseEgressURLHost s v dp).listenInterface = s.listenInterface := by
  unfold parseEgressURLHost
  repeat' split
  all_goals simp

theorem parseEgressURL_fields (s : SocketInfo) (v : GoStr) :
    (parseEgressURL s v).isResolved = true ∧
    (parseEgressURL s v).rawValue = s.rawValue ∧
    (parseEgressURL s v).patternMatch = s.patternMatch ∧
    (parseEgressURL s v).type = s.type ∧
    (parseEgressURL s v).listenPort = s.listenPort ∧
    (parseEgressURL s v).listenInterface = s.listenInterface := by
  unfold parseEgressURL
  split
  · have h := parseEgressURLHost_fields
      { s with isResolved := true, protocol := .https } (v.drop 8) 443
    simp_all
  · split
    · have h := parseEgressURLHost_fields
        { s with isResolved := true, protocol := .http } (v.drop 7) 80
      simp_all
    · have h := parseEgressURLHost_fields { s with isResolved := true } v 80
      simp_all

theorem parseIngressValue_fields (s : SocketInfo) (v : GoStr) :
    (parseIngressValue s v).isResolved = s.isResolved ∧
    (parseIngressValue s v).rawValue = s.rawValue ∧
    (parseIngressValue s v).patternMatch = s.patternMatch ∧
    (parseIngressValue s v).type = s.type ∧
    (parseIngressValue s v).protocol = s.protocol ∧
    (parseIngressValue s v).destinationHost = s.destinationHost ∧
    (parseIngressValue s v).destinationPort = s.destinationPort := by
  unfold parseIngressValue
  repeat' split
  all_goals simp

theorem parseEgressValue_fields (s : SocketInfo) (v : GoStr) :
    (parseEgressValue s v).isResolved = s.isResolved ∧
    (parseEgressValue s v).rawValue = s.rawValue ∧
    (parseEgressValue s v).patternMatch = s.patternMatch ∧
    (parseEgressValue s v).type = s.type ∧
    (parseEgressValue s v).protocol = s.protocol ∧
    (parseEgressValue s v).listenPort = s.listenPort ∧
    (parseEgressValue s v).listenInterface = s.listenInterface := by
  unfold parseEgressValue
  repeat' split
  all_goals simp

theorem parseURLForSocketHost_isResolved (s : SocketInfo) (v : GoStr) :
    (parseURLForSocketHost s v).isResolved = s.isResolved := by
  unfold parseURLForSocketHost
  repeat' split
  all_goals simp

theorem parseURLForSocket_isResolved (s : SocketInfo) (v : GoStr) :
    (parseURLForSocket s v).isResolved = s.isResolved := by
  unfold parseURLForSocket
  split
  · rw [parseURLForSocketHost_isResolved]
  · split
    · rw [parseURLForSocketHost_isResolved]
    · rw [parseURLForSocketHost_isResolved]

theorem updateSocketWithResolvedValue_isResolved (s : SocketInfo) (v : GoStr) :
    (updateSocketWithResolvedValue s v).isResolved = true := by
  unfold updateSocketWithResolvedValue
  dsimp only
  split
  · simp [(parseIngressValue_fields _ _).1]
  · simp [(parseEgressValue_fields _ _).1]

/-! ## Aggregator count lemma -/

theorem countLoop_sum (l : List SocketInfo) :
    (countLoop l).1 + (countLoop l).2 = (l.length : Int) := by
  induction l with
  | nil => simp [countLoop]
  | cons s rest ih =>
    unfold countLoop
    cases s.type <;> simp <;> omega

/-! ## Claim theorems -/

/-- Claim C5 (confirmed): after `updateCounts` — the recomputation run after
every aggregation step, including on the empty result — `total_count` equals
`ingress_count + egress_count`, all three counts equal a full recomputation
over the record sequence, and recomputing again changes nothing
(idempotence). -/
theorem c5_count_invariants (r : AnalysisResults) :
    (updateCounts r).totalCount = (updateCounts r).ingressCount + (updateCounts r).egressCount
    ∧ updateCounts (updateCounts r) = updateCounts r
    ∧ (updateCounts r).totalCount = ((updateCounts r).sockets.length : Int)
    ∧ (updateCounts r).ingressCount = (countLoop (updateCounts r).sockets).1
    ∧ (updateCounts r).egressCount = (countLoop (updateCounts r).sockets).2 := by
  refine ⟨?_, ?_, rfl, rfl, rfl⟩
  · simp only [updateCounts]
    exact (countLoop_sum r.sockets).symm
  · rfl

/-- Claim C8 (confirmed): `ResolveValues` on a record whose resolved flag is
already `true` — whether set by a previous resolver run or by the matcher from
a literal — returns the record unchanged. -/
theorem c8_resolve_idempotent (s : SocketInfo) (c : CallExpr) (f : File)
    (h : s.isResolved = true) : ResolveValues s c f = s := by
  unfold ResolveValues
  rw [if_pos h]

/-- Witness for C8: a concrete already-resolved record is untouched by the
resolver. -/
theorem c8_resolve_idempotent_witness :
    ResolveValues { sockEg with isResolved := true } { fn := .other, args := [] } emptyFile
      = { sockEg with isResolved := true } :=
  c8_resolve_idempotent _ _ _ rfl

/-- Claim C10 (confirmed): for every unresolved record whose pattern is not
one of the three HTTP helpers, `ResolveValues` runs the strategy chain on
argument index 1 of the call expression — so the result is a function of
`args[1]` only — while the catalog descriptors for `net.DialTCP` and
`net.DialUDP` designate argument index 2 (`dialAddressArg`) as the address.
The designated address argument is therefore never examined on the resolver
path for those patterns. -/
theorem c10_resolver_uses_arg_one :
    (∀ (s : SocketInfo) (c : CallExpr) (f : File),
        s.isResolved = false →
        s.patternMatch ≠ gs ("http.Get") →
        s.patternMatch ≠ gs ("http.Post") →
        s.patternMatch ≠ gs ("http.PostForm") →
        ResolveValues s c f =
          (match c.args.get? 1 with
           | some arg => (tryResolveArgument s arg f).1
           | none => s))
    ∧ egressPatterns (gs ("net.DialTCP")) = some { protocol := .tcp, addressArg := 2 }
    ∧ egressPatterns (gs ("net.DialUDP")) = some { protocol := .udp, addressArg := 2 } := by
  refine ⟨?_, by decide, by decide⟩
  intro s c f hres h1 h2 h3
  unfold ResolveValues
  rw [if_neg (by simp [hres])]
  have hcond : ¬(s.patternMatch = gs ("http.Get") ∨ s.patternMatch = gs ("http.Post")
      ∨ s.patternMatch = gs ("http.PostForm")) := by
    push_neg
    exact ⟨h1, h2, h3⟩
  dsimp only
  rw [if_neg hcond]
  rcases c with ⟨fn, args⟩
  rcases args with _ | ⟨a, _ | ⟨b, t⟩⟩ <;> simp

/-- Witness for C10: the argument-index equation at a concrete unresolved
`net.DialTCP` record and call. -/
theorem c10_resolver_uses_arg_one_witness :
    ResolveValues { type := .egress, protocol := .tcp, patternMatch := gs ("net.DialTCP") }
        { fn := .other, args := [.strLit (gs ("tcp")), .other, .strLit (gs ("h:1"))] } emptyFile
      = (match ([GoExpr.strLit (gs ("tcp")), .other, .strLit (gs ("h:1"))].get? 1) with
         | some arg =>
           (tryResolveArgument
             { type := .egress, protocol := .tcp, patternMatch := gs ("net.DialTCP") } arg emptyFile).1
         | none => { type := .egress, protocol := .tcp, patternMatch := gs ("net.DialTCP") }) :=
  c10_resolver_uses_arg_one.1 _ _ _ rfl (by decide) (by decide) (by decide)

/-- Claim C1 (code-bug evidence): passing `"https://api.example.com"` as a
literal to `http.Get` yields protocol `https`, host `api.example.com`, port
443 — but routing the same value through the top-level constant `base` yields
a record that is merely marked resolved with the raw value filled in:
protocol stays `http` and no destination field is populated, because
`parseEgressValue` skips every value containing `"://"`. -/
theorem c1_constant_url_divergence :
    c1FinalLit.map SocketInfo.protocol = some Protocol.https
    ∧ c1FinalLit.map SocketInfo.destinationHost = some (some (gs ("api.example.com")))
    ∧ c1FinalLit.map SocketInfo.destinationPort = some (some 443)
    ∧ c1FinalLit.map SocketInfo.isResolved = some true
    ∧ c1FinalConst.map SocketInfo.protocol = some Protocol.http
    ∧ c1FinalConst.map SocketInfo.destinationHost = some none
    ∧ c1FinalConst.map SocketInfo.destinationPort = some none
    ∧ c1FinalConst.map SocketInfo.isResolved = some true
    ∧ c1FinalConst.map SocketInfo.rawValue = some (gs ("https://api.example.com"))
    ∧ c1FinalLit ≠ c1FinalConst := by
  decide

/-- Claim C4 (code-bug evidence): `net.Listen("tcp", localhostAddr)` produces
an ingress record, yet the resolver's name heuristic populates
`destination_host="localhost"` on it, violating the direction invariant. -/
theorem c4_ingress_destination_host :
    c4Final.map SocketInfo.type = some TrafficType.ingress
    ∧ c4Final.map SocketInfo.destinationHost = some (some (gs ("localhost")))
    ∧ c4Final.map SocketInfo.listenPort = some none
    ∧ c4Final.map SocketInfo.listenInterface = some [] := by
  decide

/-! ## Projection corollaries and strategy-chain case lemmas -/

theorem parseIngressAddress_isResolved (s : SocketInfo) (v : GoStr) (po : Bool) :
    (parseIngressAddress s v po).isResolved = true :=
  (parseIngressAddress_fields s v po).1

theorem parseIngressAddress_rawValue (s : SocketInfo) (v : GoStr) (po : Bool) :
    (parseIngressAddress s v po).rawValue = s.rawValue :=
  (parseIngressAddress_fields s v po).2.1

theorem parseEgressAddress_isResolved (s : SocketInfo) (v : GoStr) :
    (parseEgressAddress s v).isResolved = true :=
  (parseEgressAddress_fields s v).1

theorem parseEgressAddress_rawValue (s : SocketInfo) (v : GoStr) :
    (parseEgressAddress s v).rawValue = s.rawValue :=
  (parseEgressAddress_fields s v).2.1

theorem parseEgressURL_isResolved (s : SocketInfo) (v : GoStr) :
    (parseEgressURL s v).isResolved = true :=
  (parseEgressURL_fields s v).1

theorem parseEgressURL_rawValue (s : SocketInfo) (v : GoStr) :
    (parseEgressURL s v).rawValue = s.rawValue :=
  (parseEgressURL_fields s v).2.1

theorem parseIngressValue_isResolved (s : SocketInfo) (v : GoStr) :
    (parseIngressValue s v).isResolved = s.isResolved :=
  (parseIngressValue_fields s v).1

theorem parseEgressValue_isResolved (s : SocketInfo) (v : GoStr) :
    (parseEgressValue s v).isResolved = s.isResolved :=
  (parseEgressValue_fields s v).1

theorem tryResolveBinaryExpr_cases (s : SocketInfo) (op : GoStr) (x y : GoExpr) (f : File) :
    (tryResolveBinaryExpr s op x y f).1 = s
    ∨ (tryResolveBinaryExpr s op x y f).1.isResolved = true := by
  unfold tryResolveBinaryExpr
  split
  · split
    · dsimp only
      split_ifs <;> simp [parseURLForSocket_isResolved, parseEgressValue_isResolved]
    · left
      rfl
  · left
    rfl

theorem tryResolveCallExpr_cases (s : SocketInfo) (fn : GoExpr) (f : File) :
    (tryResolveCallExpr s fn f).1 = s
    ∨ (tryResolveCallExpr s fn f).1.isResolved = true := by
  unfold tryResolveCallExpr
  split
  · dsimp only
    split_ifs <;> simp
  · left
    rfl

theorem tryResolveArgument_cases (s : SocketInfo) (a : GoExpr) (f : File) :
    (tryResolveArgument s a f).1 = s ∨ (tryResolveArgument s a f).1.isResolved = true := by
  cases a with
  | binary op x y => exact tryResolveBinaryExpr_cases s op x y f
  | call fn args => exact tryResolveCallExpr_cases s fn f
  | ident name =>
    unfold tryResolveArgument
    dsimp only
    split_ifs <;> simp [updateSocketWithResolvedValue_isResolved]
  | selector x sel =>
    unfold tryResolveArgument
    dsimp only
    split_ifs <;> simp
  | strLit v => left; rfl
  | other => left; rfl

theorem resolveValues_cases (s : SocketInfo) (c : CallExpr) (f : File) :
    ResolveValues s c f = s ∨ (ResolveValues s c f).isResolved = true := by
  unfold ResolveValues
  split
  · left; rfl
  · dsimp only
    split
    · exact tryResolveArgument_cases s _ f
    · left; rfl

/-! ## Matcher record-shape lemmas -/

theorem matchIngressPattern_some_props {c : CallExpr} {p : IngressPattern}
    {fn : GoStr} {s : SocketInfo} (h : matchIngressPattern c p fn = some s) :
    (s.isResolved = true ↔ s.rawValue ≠ [])
    ∧ (s.isResolved = false → s.listenPort = none ∧ s.listenInterface = []
        ∧ s.destinationHost = none ∧ s.destinationPort = none) := by
  unfold matchIngressPattern at h
  split at h
  · exact absurd h (by simp)
  · rw [Option.some.injEq] at h
    subst h
    constructor
    · split
      · next hraw =>
        simp only [List.getD, List.get?_eq_getElem?] at hraw
        simp [buildIngressSocket, hraw]
      · next hraw =>
        simp only [List.getD, List.get?_eq_getElem?] at hraw
        simp [parseIngressAddress_isResolved, parseIngressAddress_rawValue,
              buildIngressSocket, hraw]
    · split
      · next hraw => intro _; simp [buildIngressSocket]
      · next hraw =>
        intro hfalse
        rw [parseIngressAddress_isResolved] at hfalse
        exact absurd hfalse (by simp)

theorem matchEgressAt_some_props {c : CallExpr} {p : EgressPattern} {fn : GoStr}
    {idx : Nat} {u : Bool} {s : SocketInfo} (h : matchEgressAt c p fn idx u = some s) :
    (s.isResolved = true ↔ s.rawValue ≠ [])
    ∧ (s.isResolved = false → s.listenPort = none ∧ s.listenInterface = []
        ∧ s.destinationHost = none ∧ s.destinationPort = none) := by
  unfold matchEgressAt at h
  split at h
  · exact absurd h (by simp)
  · rw [Option.some.injEq] at h
    subst h
    constructor
    · split
      · next hraw =>
        simp only [List.getD, List.get?_eq_getElem?] at hraw
        simp [buildEgressSocket, hraw]
      · next hraw =>
        simp only [List.getD, List.get?_eq_getElem?] at hraw
        split
        · simp [parseEgressURL_isResolved, parseEgressURL_rawValue, buildEgressSocket, hraw]
        · simp [parseEgressAddress_isResolved, parseEgressAddress_rawValue,
                buildEgressSocket, hraw]
    · split
      · next hraw => intro _; simp [buildEgressSocket]
      · next hraw =>
        split
        · intro hfalse
          rw [parseEgressURL_isResolved] at hfalse
          exact absurd hfalse (by simp)
        · intro hfalse
          rw [parseEgressAddress_isResolved] at hfalse
          exact absurd hfalse (by simp)

theorem matchSocketPattern_some_props {call : CallExpr} {s : SocketInfo}
    (h : MatchSocketPattern call = some s) :
    (s.isResolved = true ↔ s.rawValue ≠ [])
    ∧ (s.isResolved = false → s.listenPort = none ∧ s.listenInterface = []
        ∧ s.destinationHost = none ∧ s.destinationPort = none) := by
  unfold MatchSocketPattern at h
  dsimp only at h
  split at h
  · exact absurd h (by simp)
  · split at h
    · exact matchIngressPattern_some_props h
    · split at h
      · unfold matchEgressPattern at h
        split at h <;> exact matchEgressAt_some_props h
      · exact absurd h (by simp)

/-- Claim C2 counterexample: the matcher record for
`net.Listen("tcp", "abc")` has `resolved=true` while every structured field
(listen\x5fport, listen\x5finterface, destination\x5fhost, destination\x5fport) is
empty, so `resolved` is not "true iff at least one structured field was
derived". -/
theorem c2_resolved_without_fields :
    (MatchSocketPattern c2Call).map SocketInfo.isResolved = some true
    ∧ (MatchSocketPattern c2Call).map SocketInfo.listenPort = some none
    ∧ (MatchSocketPattern c2Call).map SocketInfo.listenInterface = some []
    ∧ (MatchSocketPattern c2Call).map SocketInfo.destinationHost = some none
    ∧ (MatchSocketPattern c2Call).map SocketInfo.destinationPort = some none := by
  decide

/-- Claim C2 (amended): for every record produced by the matcher, the
resolved flag is `true` iff a non-empty raw value was found (a parse is then
*attempted*, but may derive no structured field); matcher records with
`resolved=false` have all structured fields empty; and a resolver run that
returns `resolved=false` leaves the record (raw value included)
unchanged. -/
theorem c2_amended_resolved_semantics :
    (∀ (call : CallExpr) (s : SocketInfo), MatchSocketPattern call = some s →
        (s.isResolved = true ↔ s.rawValue ≠ [])
        ∧ (s.isResolved = false → s.listenPort = none ∧ s.listenInterface = []
            ∧ s.destinationHost = none ∧ s.destinationPort = none))
    ∧ (∀ (s : SocketInfo) (c : CallExpr) (f : File),
        (ResolveValues s c f).isResolved = false → ResolveValues s c f = s) := by
  constructor
  · intro call s h
    exact matchSocketPattern_some_props h
  · intro s c f h
    rcases resolveValues_cases s c f with heq | hres
    · exact heq
    · rw [hres] at h
      exact absurd h (by simp)

/-- Witness for C2 (amended), at the concrete matcher output for
`net.Listen("tcp", "abc")` and a concrete failing resolver run. -/
theorem c2_amended_resolved_semantics_witness :
    (({ type := .ingress, protocol := .tcp, rawValue := gs ("abc"),
        patternMatch := gs ("net.Listen"), functionName := gs ("unknown"),
        isResolved := true } : SocketInfo).isResolved = true
      ↔ ({ type := .ingress, protocol := .tcp, rawValue := gs ("abc"),
           patternMatch := gs ("net.Listen"), functionName := gs ("unknown"),
           isResolved := true } : SocketInfo).rawValue ≠ [])
    ∧ ResolveValues { type := .egress, protocol := .tcp, patternMatch := gs ("net.Dial") }
        { fn := .other, args := [] } emptyFile
      = { type := .egress, protocol := .tcp, patternMatch := gs ("net.Dial") } :=
  ⟨(c2_amended_resolved_semantics.1 c2Call _ (by decide)).1,
   c2_amended_resolved_semantics.2 _ _ _ (by decide)⟩

/-- Claim C3 counterexample: on `"127.0.0.1:8080"` the matcher's bind-address
parser sets `listen_interface="127.0.0.1"` and `listen_port=8080`, while the
resolver's bind-address parser (which only handles the bare `":port"` form)
sets nothing — the two call paths are not identical. -/
theorem c3_matcher_resolver_divergence :
    (parseIngressAddress sockIng (gs ("127.0.0.1:8080")) false).listenInterface = gs ("127.0.0.1")
    ∧ (parseIngressAddress sockIng (gs ("127.0.0.1:8080")) false).listenPort = some 8080
    ∧ (parseIngressValue sockIng (gs ("127.0.0.1:8080"))).listenInterface = []
    ∧ (parseIngressValue sockIng (gs ("127.0.0.1:8080"))).listenPort = none
    ∧ ¬ ((parseIngressAddress sockIng (gs ("127.0.0.1:8080")) false).listenInterface
          = (parseIngressValue sockIng (gs ("127.0.0.1:8080"))).listenInterface) := by
  decide

/-- Claim C3 (amended): the matcher-path and resolver-path parsers agree on
the structured fields exactly on the restricted grammars the resolver
handles: (1) ingress addresses of the bare form `":<integer>"`, for either
value of the port-only flag; (2) egress strings with no scheme marker, no
path separator, and a single-colon `host:port` shape, where the matcher's URL
parser and the resolver's value parser agree; (3) for every string without a
`"://"` marker, the matcher's host:port parser and the resolver's value
parser agree.  Outside these grammars the call paths diverge. -/
theorem c3_amended_parser_agreement :
    (∀ (s : SocketInfo) (portOnly : Bool) (t : GoStr) (p : Int), goAtoi t = some p →
        (parseIngressAddress s ((':') :: t) portOnly).listenPort
            = (parseIngressValue s ((':') :: t)).listenPort
        ∧ (parseIngressAddress s ((':') :: t) portOnly).listenInterface
            = (parseIngressValue s ((':') :: t)).listenInterface
        ∧ (parseIngressAddress s ((':') :: t) portOnly).destinationHost
            = (parseIngressValue s ((':') :: t)).destinationHost
        ∧ (parseIngressAddress s ((':') :: t) portOnly).destinationPort
            = (parseIngressValue s ((':') :: t)).destinationPort)
    ∧ (∀ (s : SocketInfo) (v h1 pt1 : GoStr),
        goStartsWith v (gs ("https://")) = false →
        goStartsWith v (gs ("http://")) = false →
        goSplit ('/') v = [v] →
        goContains v (gs ("://")) = false →
        goSplit (':') v = [h1, pt1] →
        (parseEgressURL s v).listenPort = (parseEgressValue s v).listenPort
        ∧ (parseEgressURL s v).listenInterface = (parseEgressValue s v).listenInterface
        ∧ (parseEgressURL s v).destinationHost = (parseEgressValue s v).destinationHost
        ∧ (parseEgressURL s v).destinationPort = (parseEgressValue s v).destinationPort)
    ∧ (∀ (s : SocketInfo) (v : GoStr), goContains v (gs ("://")) = false →
        (parseEgressAddress s v).listenPort = (parseEgressValue s v).listenPort
        ∧ (parseEgressAddress s v).listenInterface = (parseEgressValue s v).listenInterface
        ∧ (parseEgressAddress s v).destinationHost = (parseEgressValue s v).destinationHost
        ∧ (parseEgressAddress s v).destinationPort = (parseEgressValue s v).destinationPort) := by
  refine ⟨?_, ?_, ?_⟩
  · intro s portOnly t p hp
    have hsplit : goSplit (':') ((':') :: t) = [[], t] := by
      unfold goSplit
      rw [if_pos rfl, goAtoi_split hp]
    cases portOnly
    · unfold parseIngressAddress parseIngressValue
      rw [hsplit]
      simp [hp]
    · unfold parseIngressAddress parseIngressValue
      have hpre : goStartsWith ((':') :: t) (gs (":")) = true := by
        have hgs : gs (":") = [(':' : Char)] := rfl
        rw [hgs]
        simp [goStartsWith]
      rw [hpre]
      simp [hp]
  · intro s v h1 pt1 hns1 hns2 hslash hsch hsplit
    have hvne : ¬ (v = []) := by
      intro hv
      subst hv
      simp [goSplit] at hsplit
    have hcol : goContains v (gs (":")) = true := goContains_of_split_two hsplit
    unfold parseEgressURL parseEgressURLHost parseEgressValue
    rw [hns1, hns2, hslash, hsch]
    simp [hvne, hcol, hsplit]
    try cases ha : goAtoi pt1 <;> simp [ha]
  · intro s v hsch
    unfold parseEgressAddress parseEgressValue
    rw [hsch]
    rcases hsp : goSplit (':') v with _ | ⟨a, _ | ⟨b, _ | ⟨z, zs⟩⟩⟩ <;>
      first
        | (simp; done)
        | (cases ha : goAtoi b <;> simp [ha])

/-- Witness for C3 (amended): ingress agreement at `":9090"`, URL/value
agreement at `"db.internal:5432"`, and address/value agreement at
`"db.internal:5432"`. -/
theorem c3_amended_parser_agreement_witness :
    ((parseIngressAddress sockIng ((':') :: gs ("9090")) true).listenPort
        = (parseIngressValue sockIng ((':') :: gs ("9090"))).listenPort)
    ∧ ((parseEgressURL sockEg (gs ("db.internal:5432"))).destinationHost
        = (parseEgressValue sockEg (gs ("db.internal:5432"))).destinationHost)
    ∧ ((parseEgressAddress sockEg (gs ("db.internal:5432"))).destinationPort
        = (parseEgressValue sockEg (gs ("db.internal:5432"))).destinationPort) :=
  ⟨(c3_amended_parser_agreement.1 sockIng true (gs ("9090")) 9090 (by decide)).1,
   (c3_amended_parser_agreement.2.1 sockEg (gs ("db.internal:5432")) (gs ("db.internal"))
      (gs ("5432")) (by decide) (by decide) (by decide) (by decide) (by decide)).2.2.1,
   (c3_amended_parser_agreement.2.2 sockEg (gs ("db.internal:5432")) (by decide)).2.2.2⟩

/-! ## Segment-level lemma for the URL parser host extraction -/

theorem parseEgressURLHost_seg {s : SocketInfo} {rem seg : GoStr} {rest : List GoStr}
    (dp : Int) (hseg : goSplit ('/') rem = seg :: rest) (hne : ¬ (seg = [])) :
    (goContains seg (gs (":")) = false →
        (parseEgressURLHost s rem dp).destinationHost = some seg
        ∧ (parseEgressURLHost s rem dp).destinationPort = some dp)
    ∧ (∀ (h pt : GoStr) (more : List GoStr), goSplit (':') seg = h :: pt :: more →
        (parseEgressURLHost s rem dp).destinationHost = some h
        ∧ (∀ p : Int, goAtoi pt = some p →
            (parseEgressURLHost s rem dp).destinationPort = some p)) := by
  unfold parseEgressURLHost
  rw [hseg]
  constructor
  · intro hnc
    simp [hne, hnc]
  · intro h pt more hsp
    have hc : goContains seg (gs (":")) = true := goContains_of_split_two hsp
    constructor
    · cases ha : goAtoi pt <;> simp [hne, hc, hsp, ha]
    · intro p hp
      simp [hne, hc, hsp, hp]

/-- Claim C6 counterexample: `"https://"` is a string literal with an
`https://` scheme, whose host segment (up to the first `/`) is empty; the
claim requires the host segment to be recorded and the default port 443 to be
used, but the code records neither. -/
theorem c6_scheme_only_url :
    (parseEgressURL sockEg (gs ("https://"))).protocol = Protocol.https
    ∧ (parseEgressURL sockEg (gs ("https://"))).destinationHost = none
    ∧ (parseEgressURL sockEg (gs ("https://"))).destinationPort = none
    ∧ ¬ ((parseEgressURL sockEg (gs ("https://"))).destinationPort = some 443) := by
  decide

/-- Claim C6 (amended): for a URL with an `https://` (resp. `http://`) scheme
whose host segment — the part of the remainder before the first `/` — is
non-empty, the protocol is promoted to https (resp. set to http), the
destination host is the segment (or its part before the first `:`), and the
destination port is the scheme default 443 (resp. 80) when the segment has no
`:`, while an explicit numeric port after the first `:` overrides the
default. -/
theorem c6_amended_url_parsing :
    (∀ (s : SocketInfo) (url seg : GoStr) (rest : List GoStr),
        goStartsWith url (gs ("https://")) = true →
        goSplit ('/') (url.drop 8) = seg :: rest →
        ¬ (seg = []) →
        (parseEgressURL s url).protocol = Protocol.https
        ∧ (goContains seg (gs (":")) = false →
            (parseEgressURL s url).destinationHost = some seg
            ∧ (parseEgressURL s url).destinationPort = some 443)
        ∧ (∀ (h pt : GoStr) (more : List GoStr), goSplit (':') seg = h :: pt :: more →
            (parseEgressURL s url).destinationHost = some h
            ∧ (∀ p : Int, goAtoi pt = some p → (parseEgressURL s url).destinationPort = some p)))
    ∧ (∀ (s : SocketInfo) (url seg : GoStr) (rest : List GoStr),
        goStartsWith url (gs ("https://")) = false →
        goStartsWith url (gs ("http://")) = true →
        goSplit ('/') (url.drop 7) = seg :: rest →
        ¬ (seg = []) →
        (parseEgressURL s url).protocol = Protocol.http
        ∧ (goContains seg (gs (":")) = false →
            (parseEgressURL s url).destinationHost = some seg
            ∧ (parseEgressURL s url).destinationPort = some 80)
        ∧ (∀ (h pt : GoStr) (more : List GoStr), goSplit (':') seg = h :: pt :: more →
            (parseEgressURL s url).destinationHost = some h
            ∧ (∀ p : Int, goAtoi pt = some p → (parseEgressURL s url).destinationPort = some p))) := by
  constructor
  · intro s url seg rest hpre hseg hne
    have hbody : parseEgressURL s url
        = parseEgressURLHost { s with isResolved := true, protocol := .https } (url.drop 8) 443 := by
      unfold parseEgressURL
      rw [hpre]
      simp
    rw [hbody]
    refine ⟨?_, ?_, ?_⟩
    · rw [(parseEgressURLHost_fields _ _ _).2.2.2.2.1]
    · intro hnc
      exact (parseEgressURLHost_seg 443 hseg hne).1 hnc
    · intro h pt more hsp
      exact (parseEgressURLHost_seg 443 hseg hne).2 h pt more hsp
  · intro s url seg rest hns hpre hseg hne
    have hbody : parseEgressURL s url
        = parseEgressURLHost { s with isResolved := true, protocol := .http } (url.drop 7) 80 := by
      unfold parseEgressURL
      rw [hns, hpre]
      simp
    rw [hbody]
    refine ⟨?_, ?_, ?_⟩
    · rw [(parseEgressURLHost_fields _ _ _).2.2.2.2.1]
    · intro hnc
      exact (parseEgressURLHost_seg 80 hseg hne).1 hnc
    · intro h pt more hsp
      exact (parseEgressURLHost_seg 80 hseg hne).2 h pt more hsp

/-- Witness for C6 (amended): the spec's two examples,
`"https://api.example.com/data"` (default port 443) and
`"http://localhost:8080/api"` (explicit port 8080 overriding the default). -/
theorem c6_amended_url_parsing_witness :
    (parseEgressURL sockEg (gs ("https://api.example.com/data"))).protocol = Protocol.https
    ∧ (parseEgressURL sockEg (gs ("https://api.example.com/data"))).destinationHost
        = some (gs ("api.example.com"))
    ∧ (parseEgressURL sockEg (gs ("https://api.example.com/data"))).destinationPort = some 443
    ∧ (parseEgressURL sockEg (gs ("http://localhost:8080/api"))).destinationHost
        = some (gs ("localhost"))
    ∧ (parseEgressURL sockEg (gs ("http://localhost:8080/api"))).destinationPort = some 8080 :=
  ⟨(c6_amended_url_parsing.1 sockEg (gs ("https://api.example.com/data"))
      (gs ("api.example.com")) [gs ("data")] (by decide) (by decide) (by decide)).1,
   ((c6_amended_url_parsing.1 sockEg (gs ("https://api.example.com/data"))
      (gs ("api.example.com")) [gs ("data")] (by decide) (by decide) (by decide)).2.1
      (by decide)).1,
   ((c6_amended_url_parsing.1 sockEg (gs ("https://api.example.com/data"))
      (gs ("api.example.com")) [gs ("data")] (by decide) (by decide) (by decide)).2.1
      (by decide)).2,
   ((c6_amended_url_parsing.2 sockEg (gs ("http://localhost:8080/api"))
      (gs ("localhost:8080")) [gs ("api")] (by decide) (by decide) (by decide)
      (by decide)).2.2 (gs ("localhost")) (gs ("8080")) [] (by decide)).1,
   (((c6_amended_url_parsing.2 sockEg (gs ("http://localhost:8080/api"))
      (gs ("localhost:8080")) [gs ("api")] (by decide) (by decide) (by decide)
      (by decide)).2.2 (gs ("localhost")) (gs ("8080")) [] (by decide)).2 8080 (by decide))⟩

/-- Claim C7 counterexample: the scheme-less input `"example.com"` has no
`:` in its host segment, yet the code sets `destination_port=80`; the claim
says the port is left unset. -/
theorem c7_schemeless_port_80 :
    (parseEgressURL sockEg (gs ("example.com"))).destinationPort = some 80
    ∧ ¬ ((parseEgressURL sockEg (gs ("example.com"))).destinationPort = none) := by
  decide

/-- Claim C7 (amended): for an input with neither scheme prefix whose host
segment (up to the first `/`) is non-empty and contains no `:`, the
destination host is the segment and the destination port is set to 80 — the
scheme-less fall-through uses the http default rather than leaving the port
unset; the protocol is unchanged. -/
theorem c7_amended_schemeless_host (s : SocketInfo) (url seg : GoStr) (rest : List GoStr)
    (hns1 : goStartsWith url (gs ("https://")) = false)
    (hns2 : goStartsWith url (gs ("http://")) = false)
    (hseg : goSplit ('/') url = seg :: rest)
    (hne : ¬ (seg = []))
    (hnc : goContains seg (gs (":")) = false) :
    (parseEgressURL s url).destinationHost = some seg
    ∧ (parseEgressURL s url).destinationPort = some 80
    ∧ (parseEgressURL s url).protocol = s.protocol := by
  have hbody : parseEgressURL s url = parseEgressURLHost { s with isResolved := true } url 80 := by
    unfold parseEgressURL
    rw [hns1, hns2]
    simp
  rw [hbody]
  refine ⟨?_, ?_, ?_⟩
  · exact ((parseEgressURLHost_seg 80 hseg hne).1 hnc).1
  · exact ((parseEgressURLHost_seg 80 hseg hne).1 hnc).2
  · rw [(parseEgressURLHost_fields _ _ _).2.2.2.2.1]

/-- Witness for C7 (amended) at the concrete input `"example.com"`. -/
theorem c7_amended_schemeless_host_witness :
    (parseEgressURL sockEg (gs ("example.com"))).destinationHost = some (gs ("example.com"))
    ∧ (parseEgressURL sockEg (gs ("example.com"))).destinationPort = some 80 :=
  ⟨(c7_amended_schemeless_host sockEg (gs ("example.com")) (gs ("example.com")) []
      (by decide) (by decide) (by decide) (by decide) (by decide)).1,
   (c7_amended_schemeless_host sockEg (gs ("example.com")) (gs ("example.com")) []
      (by decide) (by decide) (by decide) (by decide) (by decide)).2.1⟩

/-! ## Catalog lemmas for the matcher outcome analysis -/

theorem egressPatterns_url_index {f : GoStr} {p : EgressPattern}
    (h : egressPatterns f = some p) :
    (if f = gs ("http.Get") ∨ f = gs ("http.Post") ∨ f = gs ("http.PostForm")
     then p.urlArg else p.addressArg) = p.addressArg := by
  unfold egressPatterns at h
  split_ifs at h with h1 h2 h3 h4 h5 h6 h7
  all_goals first
    | (rw [Option.some.injEq] at h
       subst h
       subst_vars
       decide)
    | simp at h

theorem ingress_egress_disjoint {f : GoStr} {p : IngressPattern}
    (h : ingressPatterns f = some p) : egressPatterns f = none := by
  unfold ingressPatterns at h
  split_ifs at h with h1 h2 h3 h4 h5 h6
  all_goals first
    | (subst_vars; decide)
    | simp at h

theorem egress_ingress_disjoint {f : GoStr} {p : EgressPattern}
    (h : egressPatterns f = some p) : ingressPatterns f = none := by
  unfold egressPatterns at h
  split_ifs at h with h1 h2 h3 h4 h5 h6 h7
  all_goals first
    | (subst_vars; decide)
    | simp at h

theorem matchIngressPattern_none_iff (c : CallExpr) (p : IngressPattern) (fn : GoStr) :
    matchIngressPattern c p fn = none ↔ c.args.length ≤ p.addressArg := by
  unfold matchIngressPattern
  split
  · next hle => simp [hle]
  · next hgt => simp [hgt]

theorem matchEgressAt_none_iff (c : CallExpr) (p : EgressPattern) (fn : GoStr)
    (idx : Nat) (u : Bool) :
    matchEgressAt c p fn idx u = none ↔ c.args.length ≤ idx := by
  unfold matchEgressAt
  split
  · next hle => simp [hle]
  · next hgt => simp [hgt]

theorem matchIngressPattern_some_eq (c : CallExpr) (p : IngressPattern) (fn : GoStr)
    (h : p.addressArg < c.args.length) :
    matchIngressPattern c p fn =
      some (if extractStringLiteral (c.args.getD p.addressArg .other) = []
            then buildIngressSocket p fn (extractStringLiteral (c.args.getD p.addressArg .other)) c
            else parseIngressAddress
                  (buildIngressSocket p fn
                    (extractStringLiteral (c.args.getD p.addressArg .other)) c)
                  (extractStringLiteral (c.args.getD p.addressArg .other)) p.portOnly) := by
  unfold matchIngressPattern
  rw [if_neg (by omega)]

theorem matchEgressAt_some_eq (c : CallExpr) (p : EgressPattern) (fn : GoStr)
    (idx : Nat) (u : Bool) (h : idx < c.args.length) :
    matchEgressAt c p fn idx u =
      some (if extractStringLiteral (c.args.getD idx .other) = []
            then buildEgressSocket p fn (extractStringLiteral (c.args.getD idx .other)) c
            else if u
              then parseEgressURL
                    (buildEgressSocket p fn (extractStringLiteral (c.args.getD idx .other)) c)
                    (extractStringLiteral (c.args.getD idx .other))
              else parseEgressAddress
                    (buildEgressSocket p fn (extractStringLiteral (c.args.getD idx .other)) c)
                    (extractStringLiteral (c.args.getD idx .other))) := by
  unfold matchEgressAt
  rw [if_neg (by omega)]

/-- Claim C9 (confirmed): the matcher yields no match (`none`, a normal
outcome — the function has no error channel) exactly when the callee shape
gives no qualified name, the name has no catalog entry, or the call supplies
at most `address_argument_index` arguments; in every other case it produces a
record obtained from the preliminary record — built with the descriptor's
direction, protocol and pattern id (the last two conjuncts) — by running the
appropriate literal parser when the address argument is a non-empty string
literal.  (For the three HTTP helpers the code checks `URLArg`, which equals
`AddressArg` for every catalog entry.) -/
theorem c9_match_outcomes (call : CallExpr) :
    (MatchSocketPattern call = none ↔
      (extractFunctionName call.fn = []
       ∨ (ingressPatterns (extractFunctionName call.fn) = none
          ∧ egressPatterns (extractFunctionName call.fn) = none)
       ∨ (∃ p, ingressPatterns (extractFunctionName call.fn) = some p
              ∧ call.args.length ≤ p.addressArg)
       ∨ (∃ p, egressPatterns (extractFunctionName call.fn) = some p
              ∧ call.args.length ≤ p.addressArg)))
    ∧ (∀ p : IngressPattern,
        ingressPatterns (extractFunctionName call.fn) = some p →
        p.addressArg < call.args.length →
        MatchSocketPattern call =
          some (if extractStringLiteral (call.args.getD p.addressArg .other) = []
                then buildIngressSocket p (extractFunctionName call.fn)
                      (extractStringLiteral (call.args.getD p.addressArg .other)) call
                else parseIngressAddress
                      (buildIngressSocket p (extractFunctionName call.fn)
                        (extractStringLiteral (call.args.getD p.addressArg .other)) call)
                      (extractStringLiteral (call.args.getD p.addressArg .other)) p.portOnly))
    ∧ (∀ p : EgressPattern,
        egressPatterns (extractFunctionName call.fn) = some p →
        p.addressArg < call.args.length →
        ((extractFunctionName call.fn = gs ("http.Get")
            ∨ extractFunctionName call.fn = gs ("http.Post")
            ∨ extractFunctionName call.fn = gs ("http.PostForm")) →
          MatchSocketPattern call =
            some (if extractStringLiteral (call.args.getD p.addressArg .other) = []
                  then buildEgressSocket p (extractFunctionName call.fn)
                        (extractStringLiteral (call.args.getD p.addressArg .other)) call
                  else parseEgressURL
                        (buildEgressSocket p (extractFunctionName call.fn)
                          (extractStringLiteral (call.args.getD p.addressArg .other)) call)
                        (extractStringLiteral (call.args.getD p.addressArg .other))))
        ∧ (¬ (extractFunctionName call.fn = gs ("http.Get")
            ∨ extractFunctionName call.fn = gs ("http.Post")
            ∨ extractFunctionName call.fn = gs ("http.PostForm")) →
          MatchSocketPattern call =
            some (if extractStringLiteral (call.args.getD p.addressArg .other) = []
                  then buildEgressSocket p (extractFunctionName call.fn)
                        (extractStringLiteral (call.args.getD p.addressArg .other)) call
                  else parseEgressAddress
                        (buildEgressSocket p (extractFunctionName call.fn)
                          (extractStringLiteral (call.args.getD p.addressArg .other)) call)
                        (extractStringLiteral (call.args.getD p.addressArg .other)))))
    ∧ (∀ (p : IngressPattern) (f r : GoStr) (c : CallExpr),
        (buildIngressSocket p f r c).type = TrafficType.ingress
        ∧ (buildIngressSocket p f r c).protocol = p.protocol
        ∧ (buildIngressSocket p f r c).patternMatch = f
        ∧ (buildIngressSocket p f r c).isResolved = false)
    ∧ (∀ (p : EgressPattern) (f r : GoStr) (c : CallExpr),
        (buildEgressSocket p f r c).type = TrafficType.egress
        ∧ (buildEgressSocket p f r c).protocol = p.protocol
        ∧ (buildEgressSocket p f r c).patternMatch = f
        ∧ (buildEgressSocket p f r c).isResolved = false) := by
  refine ⟨?_, ?_, ?_, fun p f r c => ⟨rfl, rfl, rfl, rfl⟩, fun p f r c => ⟨rfl, rfl, rfl, rfl⟩⟩
  · unfold MatchSocketPattern
    dsimp only
    by_cases hfn : extractFunctionName call.fn = []
    · simp [hfn]
    · rw [if_neg hfn]
      rcases hing : ingressPatterns (extractFunctionName call.fn) with _ | p
      · rcases heg : egressPatterns (extractFunctionName call.fn) with _ | q
        · simp [hfn]
        · show matchEgressPattern call q (extractFunctionName call.fn) = none ↔ _
          unfold matchEgressPattern
          by_cases hhttp : extractFunctionName call.fn = gs ("http.Get")
              ∨ extractFunctionName call.fn = gs ("http.Post")
              ∨ extractFunctionName call.fn = gs ("http.PostForm")
          · rw [if_pos hhttp]
            have hidx := egressPatterns_url_index heg
            rw [if_pos hhttp] at hidx
            rw [matchEgressAt_none_iff, hidx]
            simp [hfn]
          · rw [if_neg hhttp]
            rw [matchEgressAt_none_iff]
            simp [hfn]
      · show matchIngressPattern call p (extractFunctionName call.fn) = none ↔ _
        have hdis := ingress_egress_disjoint hing
        rw [matchIngressPattern_none_iff, hdis]
        simp [hfn]
  · intro p hing hlt
    have hfn : ¬ (extractFunctionName call.fn = []) := by
      intro h
      rw [h] at hing
      have : ingressPatterns [] = none := by decide
      rw [this] at hing
      cases hing
    unfold MatchSocketPattern
    dsimp only
    rw [if_neg hfn, hing]
    exact matchIngressPattern_some_eq call p _ hlt
  · intro p heg hlt
    have hfn : ¬ (extractFunctionName call.fn = []) := by
      intro h
      rw [h] at heg
      have : egressPatterns [] = none := by decide
      rw [this] at heg
      cases heg
    have hdis := egress_ingress_disjoint heg
    constructor
    · intro hhttp
      unfold MatchSocketPattern
      dsimp only
      rw [if_neg hfn, hdis, heg]
      show matchEgressPattern call p (extractFunctionName call.fn) = _
      unfold matchEgressPattern
      rw [if_pos hhttp]
      have hidx := egressPatterns_url_index heg
      rw [if_pos hhttp] at hidx
      rw [hidx]
      rw [matchEgressAt_some_eq call p _ p.addressArg true hlt]
      simp
    · intro hhttp
      unfold MatchSocketPattern
      dsimp only
      rw [if_neg hfn, hdis, heg]
      show matchEgressPattern call p (extractFunctionName call.fn) = _
      unfold matchEgressPattern
      rw [if_neg hhttp]
      rw [matchEgressAt_some_eq call p _ p.addressArg false hlt]
      simp

/-- Witness for C9: `net.Listen("tcp")` with a missing address argument is a
no-match, while `net.Listen("tcp", "abc")` produces the parsed preliminary
record. -/
theorem c9_match_outcomes_witness :
    MatchSocketPattern { fn := .selector (.ident (gs ("net"))) (gs ("Listen")),
                         args := [.strLit (gs ("tcp"))] } = none
    ∧ MatchSocketPattern c2Call =
        some (parseIngressAddress
              (buildIngressSocket { protocol := .tcp, addressArg := 1 } (gs ("net.Listen"))
                (gs ("abc")) c2Call)
              (gs ("abc")) false) :=
  ⟨(c9_match_outcomes _).1.mpr
     (Or.inr (Or.inr (Or.inl ⟨{ protocol := .tcp, addressArg := 1 }, by decide, by decide⟩))),
   by
     have h := (c9_match_outcomes c2Call).2.1 { protocol := .tcp, addressArg := 1 }
       (by decide) (by decide)
     rw [h]
     decide⟩
